import Mathlib

/-!
# CrateCaddy song identity resolution and merge engine — Lean embedding

A shallow embedding of the core of `src/api/src/services/songService.ts`
(`normalizeArtistTitle`, `findMatchingSong`, `mergeSongData`,
`upsertSongWithMerge`) and the relevant parts of the Mongoose model
`src/api/src/models/Song.ts` (required-field validation of `title` and
`artistTitleNormalized`, and the `pre('save')` hook that recomputes
`artistTitleNormalized`), over a catalog modelled as a list of songs.

Conventions of the embedding:
* JavaScript optional / nullable values become `Option`.
* JavaScript numbers used here (durations in ms, bpm, year, rating,
  file sizes, timestamps) are modelled as `Int`; none of the verified
  code performs non-integral arithmetic on them.
* Mongoose semantics that the code relies on are modelled explicitly:
  `find` on the collection is a filter over the stored list (a `$gte/$lte`
  range query does not match documents whose field is absent);
  `findByIdAndUpdate` runs neither validators nor `save` hooks;
  the schema's `trim: true` setters run at cast time when a new document
  is constructed, before validation; `save` on a new document runs
  required-field validation first (the built-in `validateBeforeSave` hook
  is unshifted in front of all user `pre('save')` hooks) and only then
  the user `pre('save')` hook that recomputes `artistTitleNormalized`.
* String case mapping and the Unicode letter class are modelled on the
  ASCII and Latin-1 letter ranges; JavaScript agrees with the model on
  every string this development evaluates.
-/

/-- The `sourceType` enum of the `ISource` schema
(`'applemusic' | 'rekordbox' | 'djaypro' | 'local'`). -/
inductive SourceType where
  | applemusic
  | rekordbox
  | djaypro
  | local
  deriving Repr, DecidableEq

/-- The part of the free-form `sourceMetadata` mapping that the merge code
reads: the optional `id` field (`newSource.sourceMetadata?.id`). -/
structure SourceMeta where
  id : Option String
  deriving Repr, DecidableEq

/-- One `ISource` subdocument: a concrete file/stream instance of a song. -/
structure Source where
  sourceType : SourceType
  filePath : Option String
  fileSize : Option Int
  bitRate : Option Int
  fileType : Option String
  sourceMetadata : Option SourceMeta
  lastImportDate : Int
  deriving Repr, DecidableEq

/-- One stored `ISong` document (the current `Song.ts` schema). `id`
stands for the store-assigned `_id`. -/
structure Song where
  id : Nat
  title : String
  artist : String
  album : Option String
  duration : Option Int
  genres : List String
  grouping : List String
  bpm : Option Int
  year : Option Int
  key : Option String
  rating : Option Int
  artistTitleNormalized : String
  sources : List Source
  deriving Repr, DecidableEq

/-- A `Partial<ISong>`: the incoming song-field bundle handed to
`mergeSongData` / `upsertSongWithMerge`. `none` stands for an
absent (or `null`) field. -/
structure SongPatch where
  title : Option String := none
  artist : Option String := none
  album : Option String := none
  duration : Option Int := none
  genres : Option (List String) := none
  grouping : Option (List String) := none
  bpm : Option Int := none
  year : Option Int := none
  key : Option String := none
  rating : Option Int := none
  artistTitleNormalized : Option String := none
  deriving Repr, DecidableEq

/-- The persistent document store: the stored songs (in insertion order,
which is the order `find` returns them) and the next store-assigned id. -/
structure Catalog where
  songs : List Song
  nextId : Nat
  deriving Repr, DecidableEq

/-! ## Text normalizer (`normalizeArtistTitle`, songService.ts lines 11–21) -/

/-- `String.prototype.toLowerCase` restricted to the ASCII and Latin-1
letter ranges (the ranges exercised by this development). -/
def lowerChar (c : Char) : Char :=
  if 'A' ≤ c ∧ c ≤ 'Z' then Char.ofNat (c.toNat + 32)
  else if 0xC0 ≤ c.toNat ∧ c.toNat ≤ 0xDE ∧ c.toNat ≠ 0xD7 then Char.ofNat (c.toNat + 32)
  else c

/-- A regex `\w` word character: `[A-Za-z0-9_]`. -/
def isWordChar (c : Char) : Bool :=
  c.isAlphanum || c == '_'

/-- `\p{Letter}` restricted to ASCII and Latin-1: ASCII letters plus
`U+00C0`–`U+00FF` without `×` (`U+00D7`) and `÷` (`U+00F7`). -/
def isUnicodeLetter (c : Char) : Bool :=
  c.isAlpha || (0xC0 ≤ c.toNat && c.toNat ≤ 0xFF && c.toNat ≠ 0xD7 && c.toNat ≠ 0xF7)

/-- A character kept by `.replace(/[^\p{Letter}\p{Number}\s]/gu, '')`:
letters, numbers and whitespace survive. -/
def keepChar (c : Char) : Bool :=
  isUnicodeLetter c || c.isDigit || c.isWhitespace

/-- The literal pattern of `/\boriginal mix\b/g` (the string is already
lowercased when the replacement runs). -/
def originalMixPat : List Char := "original mix".toList

/-- Whether a regex `\b` word boundary sits just before `cs`, given the
previous character of the original string (`none` at the string start). -/
def boundaryBefore (prev : Option Char) : Bool :=
  match prev with
  | none => true
  | some c => !(isWordChar c)

/-- Whether a regex `\b` word boundary sits just after a match, i.e. at the
start of the remaining characters `cs`. -/
def boundaryAfter (cs : List Char) : Bool :=
  match cs with
  | [] => true
  | c :: _ => !(isWordChar c)

/-- `.replace(/\boriginal mix\b/g, '')`: scan left to right, removing each
non-overlapping occurrence of `original mix` that is flanked by word
boundaries of the original string. `prev` is the character preceding the
scan position in the original string; after a removal the scan resumes
behind the match, whose final original character is `x`. -/
def stripOriginalMix : Option Char → List Char → List Char
  | _, [] => []
  | prev, 'o' :: 'r' :: 'i' :: 'g' :: 'i' :: 'n' :: 'a' :: 'l' :: ' ' :: 'm' :: 'i' :: 'x' :: rest =>
    if boundaryBefore prev && boundaryAfter rest then
      stripOriginalMix (some 'x') rest
    else
      'o' :: stripOriginalMix (some 'o')
        ('r' :: 'i' :: 'g' :: 'i' :: 'n' :: 'a' :: 'l' :: ' ' :: 'm' :: 'i' :: 'x' :: rest)
  | _, c :: rest => c :: stripOriginalMix (some c) rest

/-- `.replace(/\s+/g, ' ')`: each maximal whitespace run becomes a single
space. `prevSpace` records whether the previous character was whitespace. -/
def collapseWhitespace (prevSpace : Bool) (cs : List Char) : List Char :=
  match cs with
  | [] => []
  | c :: rest =>
    if c.isWhitespace then
      if prevSpace then collapseWhitespace true rest
      else ' ' :: collapseWhitespace true rest
    else c :: collapseWhitespace false rest

/-- `String.prototype.trim`: drop leading and trailing whitespace. -/
def trimChars (cs : List Char) : List Char :=
  ((cs.dropWhile Char.isWhitespace).reverse.dropWhile Char.isWhitespace).reverse

/-- `String.prototype.trim` on strings — also the effect of a Mongoose
`trim: true` schema setter, which trims a string at cast time, before
validation runs. -/
def trimString (s : String) : String :=
  String.mk (trimChars s.toList)

/-- `normalizeArtistTitle` (songService.ts lines 11–21): empty result when
either input is empty (JS falsiness of `''`), otherwise concatenate with a
space, trim, lowercase, strip `original mix` at word boundaries, drop
everything but letters/numbers/whitespace, collapse whitespace, trim. -/
def normalizeArtistTitle (artist title : String) : String :=
  if artist = "" || title = "" then ""
  else
    let cs0 := trimChars (artist ++ " " ++ title).toList
    let cs1 := cs0.map lowerChar
    let cs2 := stripOriginalMix none cs1
    let cs3 := cs2.filter keepChar
    let cs4 := collapseWhitespace false cs3
    String.mk (trimChars cs4)


/-! ## Matcher (`findMatchingSong`, songService.ts lines 52–91) -/

/-- The MongoDB duration range condition
`{ $gte: duration - 2000, $lte: duration + 2000 }`: a document matches only
when its `duration` field is present and lies in the inclusive band. -/
def durationInBand (songDur : Option Int) (d : Int) : Bool :=
  match songDur with
  | some v => decide (d - 2000 ≤ v) && decide (v ≤ d + 2000)
  | none => false

/-- The tight-tolerance test of the tie-break
(`song.duration && Math.abs(song.duration - duration) < 1000`): the stored
duration must be truthy (present and nonzero) and strictly within 1000 ms. -/
def tightDurationMatch (songDur : Option Int) (d : Int) : Bool :=
  match songDur with
  | some v => decide (v ≠ 0) && decide ((v - d).natAbs < 1000)
  | none => false

/-- The candidate query of `findMatchingSong`: all songs whose
`artistTitleNormalized` equals the computed key, narrowed by the ±2000 ms
duration band when a positive duration is supplied
(`if (duration && duration > 0)`). Empty when the key is empty (the caller
returns before querying in that case). -/
def matchCandidates (songs : List Song) (artist title : String)
    (duration : Option Int) : List Song :=
  let normalized := normalizeArtistTitle artist title
  if normalized = "" then []
  else
    songs.filter fun s =>
      s.artistTitleNormalized == normalized &&
      (match duration with
       | some d => if 0 < d then durationInBand s.duration d else true
       | none => true)

/-- `findMatchingSong` (songService.ts lines 52–91): return `none` for an
empty key or an empty candidate set; with a positive supplied duration
prefer the first candidate passing the tight test, else the first
candidate. -/
def findMatchingSong (songs : List Song) (artist title : String)
    (duration : Option Int) : Option Song :=
  if normalizeArtistTitle artist title = "" then none
  else
    let candidates := matchCandidates songs artist title duration
    match candidates with
    | [] => none
    | first :: _ =>
      match duration with
      | some d =>
        if 0 < d then
          match candidates.find? (fun s => tightDurationMatch s.duration d) with
          | some s => some s
          | none => some first
        else some first
      | none => some first

/-! ## Merger (`mergeSongData`, songService.ts lines 100–169) -/

/-- The union merge of the array fields (songService.ts lines 110–120):
`new Set(existing)` followed by inserting each incoming element, read back
in insertion order — the deduplicated existing values followed by the new
incoming values, in first-occurrence order. `acc` is the set contents so
far. -/
def dedupInsertAll (acc : List String) : List String → List String
  | [] => acc
  | g :: gs => if g ∈ acc then dedupInsertAll acc gs else dedupInsertAll (acc ++ [g]) gs

/-- `Array.from` of the set built from `existing` then extended with
`incoming`. -/
def setUnion (existing incoming : List String) : List String :=
  dedupInsertAll [] (existing ++ incoming)

/-- Scalar overwrite-if-present (songService.ts lines 123–131, for `bpm`,
`year`, `rating`): an incoming non-null value replaces the existing one. -/
def mergeScalar (incoming existing : Option Int) : Option Int :=
  match incoming with
  | some v => some v
  | none => existing

/-- String overwrite-if-present where `''` counts as absent
(songService.ts lines 132–134 for `key` and 141–143 for `album`). -/
def mergeNonEmptyString (incoming existing : Option String) : Option String :=
  match incoming with
  | some v => if v = "" then existing else some v
  | none => existing

/-- Duration merge (songService.ts lines 135–140): a positive incoming
duration is written only when the existing value is falsy
(absent or zero). -/
def mergeDuration (incoming existing : Option Int) : Option Int :=
  match incoming with
  | some d =>
    if 0 < d then
      match existing with
      | none => some d
      | some v => if v = 0 then some d else some v
    else existing
  | none => existing

/-- `newSource.sourceMetadata?.id`. -/
def sourceMetaId (s : Source) : Option String :=
  s.sourceMetadata.bind (fun m => m.id)

/-- `const sourceKey = newSource.sourceMetadata?.id || newSource.filePath`
(songService.ts line 149): `||` falls through to `filePath` when the id is
absent or the empty string. -/
def sourceKey (src : Source) : Option String :=
  match sourceMetaId src with
  | some i => if i = "" then src.filePath else some i
  | none => src.filePath

/-- The `findIndex` predicate of the source merge (songService.ts lines
150–156): same source type, and either the existing source's metadata id
equals the (truthy) incoming key, or the incoming source has a (truthy)
file path equal to the existing one's. -/
def sourceMatches (newSource existing : Source) : Bool :=
  if existing.sourceType == newSource.sourceType then
    (match sourceKey newSource with
     | some k => decide (k ≠ "") && (sourceMetaId existing == some k)
     | none => false) ||
    (match newSource.filePath with
     | some fp => decide (fp ≠ "") && (existing.filePath == some fp)
     | none => false)
  else false

/-- The sources-array merge (songService.ts lines 146–166): replace the
first matching source in place, otherwise append the incoming source. -/
def mergeSources (existingSources : List Source) (newSource : Source) : List Source :=
  match existingSources.findIdx? (fun s => sourceMatches newSource s) with
  | some i => existingSources.set i newSource
  | none => existingSources ++ [newSource]

/-- `mergeSongData` (songService.ts lines 100–169): start from the spread
of the existing document and apply the per-field policies; the JS code
assigns the fields sequentially but they are pairwise distinct, so a
single record update is equivalent. `artist`, `title`, `_id` and
`artistTitleNormalized` are never touched by the merge. -/
def mergeSongData (existing : Song) (incoming : SongPatch) (newSource : Source) : Song :=
  { existing with
    genres := match incoming.genres with
      | some gs => setUnion existing.genres gs
      | none => existing.genres
    grouping := match incoming.grouping with
      | some gs => setUnion existing.grouping gs
      | none => existing.grouping
    bpm := mergeScalar incoming.bpm existing.bpm
    year := mergeScalar incoming.year existing.year
    rating := mergeScalar incoming.rating existing.rating
    key := mergeNonEmptyString incoming.key existing.key
    duration := mergeDuration incoming.duration existing.duration
    album := mergeNonEmptyString incoming.album existing.album
    sources := mergeSources existing.sources newSource }

/-! ## Store writes (`Song.ts` model semantics) and the orchestrator
(`upsertSongWithMerge`, songService.ts lines 180–209) -/

/-- The document constructed by
`new Song({ ...songData, artist, title, duration, sources: [source] })`:
`songData` fields, with `artist`, `title`, `duration` and `sources`
overridden, schema defaults (`[]`) for the absent array fields, and the
store-assigned id. The schema's `trim: true` setters on the string paths
`title`, `artist`, `album`, `key` and `artistTitleNormalized` run at cast
time, so the constructed document holds the trimmed values (in particular
a whitespace-only value is reduced to `''` before validation sees it). An
absent `artistTitleNormalized` is represented by `""`, which the
required-field validation treats exactly like a missing value. -/
def buildNewSongDoc (songData : SongPatch) (artist title : String)
    (duration : Option Int) (source : Source) (id : Nat) : Song :=
  { id := id
    title := trimString title
    artist := trimString artist
    album := songData.album.map trimString
    duration := duration
    genres := songData.genres.getD []
    grouping := songData.grouping.getD []
    bpm := songData.bpm
    year := songData.year
    key := songData.key.map trimString
    rating := songData.rating
    artistTitleNormalized := trimString (songData.artistTitleNormalized.getD "")
    sources := [source] }

/-- `document.save()` for a new `Song` (Song.ts): Mongoose first runs the
required-field validation (`title` and `artistTitleNormalized` are
`required` strings, failed by missing values and by `''` — including
values that the `trim: true` setters reduced to `''` at cast time; the
built-in `validateBeforeSave` hook is unshifted ahead of all user
`pre('save')` hooks), then the user `pre('save')` hook of Song.ts lines
365–371 recomputes `artistTitleNormalized` (`this.isNew` holds), then
inserts. -/
def saveNewSong (cat : Catalog) (doc : Song) : Except String (Catalog × Song) :=
  if doc.title = "" then
    Except.error "ValidationError: title is required"
  else if doc.artistTitleNormalized = "" then
    Except.error "ValidationError: artistTitleNormalized is required"
  else
    let finalDoc :=
      { doc with artistTitleNormalized := normalizeArtistTitle doc.artist doc.title }
    Except.ok ({ songs := cat.songs ++ [finalDoc], nextId := cat.nextId + 1 }, finalDoc)

/-- `Song.findByIdAndUpdate(id, fields, { new: true })`: replace the fields
of the document with the given id and return the updated document; `null`
when the id is absent. Runs neither validators nor `save` hooks; the `_id`
itself is immutable. -/
def findByIdAndUpdate (cat : Catalog) (id : Nat) (fields : Song) :
    Option (Catalog × Song) :=
  if cat.songs.any (fun s => s.id == id) then
    some ({ cat with
            songs := cat.songs.map (fun s => if s.id == id then { fields with id := id } else s) },
          { fields with id := id })
  else none

/-- `upsertSongWithMerge` (songService.ts lines 180–209): find a match;
merge and update it, or build and save a new song. -/
def upsertSongWithMerge (cat : Catalog) (artist title : String)
    (duration : Option Int) (songData : SongPatch) (source : Source) :
    Except String (Catalog × Song) :=
  match findMatchingSong cat.songs artist title duration with
  | some existing =>
    let merged := mergeSongData existing songData source
    match findByIdAndUpdate cat existing.id merged with
    | some (cat2, updated) => Except.ok (cat2, updated)
    | none => Except.error "Failed to update song"
  | none =>
    saveNewSong cat (buildNewSongDoc songData artist title duration source cat.nextId)

/-- The catalog state after an upsert call: a failed call has performed no
write (both failure modes — validation and a vanished id — precede any
write). -/
def catalogAfter (r : Except String (Catalog × Song)) (orig : Catalog) : Catalog :=
  match r with
  | Except.ok (c, _) => c
  | Except.error _ => orig

/-! ## Concrete fixtures used by witnesses and counterexamples -/

/-- An Apple-Music-style source with a metadata id and a file path. -/
def srcApple (i : String) (p : Option String) : Source :=
  { sourceType := SourceType.applemusic, filePath := p, fileSize := none,
    bitRate := none, fileType := none, sourceMetadata := some { id := some i },
    lastImportDate := 0 }

/-- A dJay-Pro-style source identified by its file path only. -/
def srcDjay (p : String) : Source :=
  { sourceType := SourceType.djaypro, filePath := some p, fileSize := none,
    bitRate := none, fileType := none, sourceMetadata := none,
    lastImportDate := 0 }

/-- A stored song with the given id, duration, genres and sources, with the
normalized identity of "Daft Punk" / "One More Time". -/
def mkSong (id : Nat) (dur : Option Int) (gs : List String) (ss : List Source) : Song :=
  { id := id, title := "One More Time", artist := "Daft Punk", album := none,
    duration := dur, genres := gs, grouping := [], bpm := none, year := none,
    key := none, rating := none,
    artistTitleNormalized := "daft punk one more time", sources := ss }

/-- The empty catalog. -/
def emptyCatalog : Catalog := { songs := [], nextId := 0 }

/-- A patch that carries only a precomputed normalized identity, the way
the Rekordbox importer builds its `songData`. -/
def patchWithNorm : SongPatch := { artistTitleNormalized := some "daft punk one more time" }

/-! ## Helper lemmas about the set-union merge -/

theorem dedupInsertAll_append (acc l1 l2 : List String) :
    dedupInsertAll acc (l1 ++ l2) = dedupInsertAll (dedupInsertAll acc l1) l2 := by
  induction l1 generalizing acc with
  | nil => rfl
  | cons g gs ih =>
    simp only [List.cons_append, dedupInsertAll]
    by_cases h : g ∈ acc
    · simp only [if_pos h]
      exact ih acc
    · simp only [if_neg h]
      exact ih (acc ++ [g])

theorem dedupInsertAll_eq_append (acc l : List String) :
    ∃ t, dedupInsertAll acc l = acc ++ t := by
  induction l generalizing acc with
  | nil => exact ⟨[], by simp [dedupInsertAll]⟩
  | cons g gs ih =>
    simp only [dedupInsertAll]
    by_cases h : g ∈ acc
    · simpa [h] using ih acc
    · obtain ⟨t, ht⟩ := ih (acc ++ [g])
      refine ⟨g :: t, ?_⟩
      simp [h, ht]

theorem mem_dedupInsertAll (acc l : List String) (a : String)
    (h : a ∈ acc ∨ a ∈ l) : a ∈ dedupInsertAll acc l := by
  induction l generalizing acc with
  | nil =>
    simpa [dedupInsertAll] using h.resolve_right (by simp)
  | cons g gs ih =>
    simp only [dedupInsertAll]
    by_cases hg : g ∈ acc
    · simp only [if_pos hg]
      apply ih
      rcases h with h | h
      · exact Or.inl h
      · rcases List.mem_cons.mp h with rfl | h
        · exact Or.inl hg
        · exact Or.inr h
    · simp only [if_neg hg]
      apply ih
      rcases h with h | h
      · exact Or.inl (by simp [h])
      · rcases List.mem_cons.mp h with rfl | h
        · exact Or.inl (by simp)
        · exact Or.inr h

theorem dedupInsertAll_of_nodup (acc l : List String)
    (h : (acc ++ l).Nodup) : dedupInsertAll acc l = acc ++ l := by
  induction l generalizing acc with
  | nil => simp [dedupInsertAll]
  | cons g gs ih =>
    have hg : g ∉ acc := by
      rcases List.nodup_append.mp h with ⟨-, -, hdisj⟩
      intro hmem
      exact hdisj hmem (by simp)
    simp only [dedupInsertAll, if_neg hg]
    have h2 : ((acc ++ [g]) ++ gs).Nodup := by
      simpa [List.append_assoc] using h
    rw [ih (acc ++ [g]) h2]
    simp

theorem dedupInsertAll_of_subset (acc l : List String)
    (h : ∀ g ∈ l, g ∈ acc) : dedupInsertAll acc l = acc := by
  induction l with
  | nil => rfl
  | cons g gs ih =>
    simp only [dedupInsertAll, if_pos (h g (by simp))]
    exact ih (fun x hx => h x (by simp [hx]))

theorem mem_setUnion_left (existing incoming : List String) (a : String)
    (h : a ∈ existing) : a ∈ setUnion existing incoming :=
  mem_dedupInsertAll [] (existing ++ incoming) a
    (Or.inr (List.mem_append_left incoming h))

theorem setUnion_length_ge (existing incoming : List String)
    (h : existing.Nodup) :
    existing.length ≤ (setUnion existing incoming).length := by
  unfold setUnion
  rw [dedupInsertAll_append, dedupInsertAll_of_nodup [] existing (by simpa using h)]
  simp only [List.nil_append]
  obtain ⟨t, ht⟩ := dedupInsertAll_eq_append existing incoming
  rw [ht]
  simp

theorem setUnion_noop (existing incoming : List String)
    (hnd : existing.Nodup) (hsub : ∀ g ∈ incoming, g ∈ existing) :
    setUnion existing incoming = existing := by
  unfold setUnion
  rw [dedupInsertAll_append, dedupInsertAll_of_nodup [] existing (by simpa using hnd)]
  simp only [List.nil_append]
  exact dedupInsertAll_of_subset existing incoming hsub

/-- A patch with every field absent. -/
def emptyPatch : SongPatch := {}

/-- Whether an `Except` result is a success. -/
def exceptIsOk {ε α : Type} : Except ε α → Bool
  | Except.ok _ => true
  | Except.error _ => false

/-- The normalized-identity invariant: the stored derived field agrees
with the normalizer applied to the stored `artist` and `title`. -/
def NormInvariant (s : Song) : Prop :=
  s.artistTitleNormalized = normalizeArtistTitle s.artist s.title

/-! ## Helper lemmas about `findIdx?`, `mergeSources` and the matcher -/

theorem findIdx?_start_le_and_lt {α : Type} (p : α → Bool) :
    ∀ (l : List α) (s j : Nat), List.findIdx? p l s = some j →
      s ≤ j ∧ j - s < l.length := by
  intro l
  induction l with
  | nil => intro s j h; simp [List.findIdx?_nil] at h
  | cons a t ih =>
    intro s j h
    rw [List.findIdx?_cons] at h
    by_cases hp : p a
    · rw [if_pos hp] at h
      cases h
      simp
    · rw [if_neg hp] at h
      obtain ⟨h1, h2⟩ := ih (s + 1) j h
      refine ⟨by omega, ?_⟩
      simp only [List.length_cons]
      omega

theorem findIdx?_some_lt {α : Type} (p : α → Bool) (l : List α) (i : Nat)
    (h : List.findIdx? p l = some i) : i < l.length := by
  have := findIdx?_start_le_and_lt p l 0 i h
  omega

theorem mergeSources_ne_nil (es : List Source) (ns : Source) :
    mergeSources es ns ≠ [] := by
  unfold mergeSources
  cases h : es.findIdx? (fun s => sourceMatches ns s) with
  | none => simp
  | some i =>
    have hi := findIdx?_some_lt _ es i h
    show es.set i ns ≠ []
    intro hnil
    have hlen : (es.set i ns).length = 0 := by rw [hnil]; rfl
    rw [List.length_set] at hlen
    omega

theorem findMatchingSong_eq_none (songs : List Song) (a t : String)
    (dur : Option Int)
    (h : ∀ s ∈ songs, s.artistTitleNormalized ≠ normalizeArtistTitle a t) :
    findMatchingSong songs a t dur = none := by
  unfold findMatchingSong
  by_cases hk : normalizeArtistTitle a t = ""
  · simp [hk]
  · have hc : matchCandidates songs a t dur = [] := by
      unfold matchCandidates
      rw [if_neg hk]
      rw [List.filter_eq_nil_iff]
      intro s hs
      simp only [Bool.and_eq_true, beq_iff_eq, not_and]
      intro heq
      exact absurd heq (h s hs)
    simp [hk, hc]

theorem findMatchingSong_mem (songs : List Song) (a t : String)
    (dur : Option Int) (s : Song)
    (h : findMatchingSong songs a t dur = some s) : s ∈ songs := by
  unfold findMatchingSong at h
  by_cases hk : normalizeArtistTitle a t = ""
  · simp [hk] at h
  · rw [if_neg hk] at h
    have hsub : ∀ x ∈ matchCandidates songs a t dur, x ∈ songs := by
      intro x hx
      unfold matchCandidates at hx
      rw [if_neg hk] at hx
      exact List.mem_of_mem_filter hx
    cases hc : matchCandidates songs a t dur with
    | nil => rw [hc] at h; simp at h
    | cons first restc =>
      rw [hc] at h
      apply hsub
      rw [hc]
      cases dur with
      | none =>
        have hfs : some first = some s := h
        cases hfs
        exact List.mem_cons_self _ _
      | some d =>
        by_cases hd : (0 : Int) < d
        · have h2 : (if 0 < d then
              match List.find? (fun x => tightDurationMatch x.duration d) (first :: restc) with
              | some y => some y
              | none => some first
            else some first) = some s := h
          rw [if_pos hd] at h2
          cases hf : (first :: restc).find? (fun x => tightDurationMatch x.duration d) with
          | some y =>
            rw [hf] at h2
            cases h2
            exact List.mem_of_find?_eq_some hf
          | none =>
            rw [hf] at h2
            cases h2
            exact List.mem_cons_self _ _
        · have h2 : (if 0 < d then
              match List.find? (fun x => tightDurationMatch x.duration d) (first :: restc) with
              | some y => some y
              | none => some first
            else some first) = some s := h
          rw [if_neg hd] at h2
          cases h2
          exact List.mem_cons_self _ _

/-! ## Claim theorems -/

/-- **C10** The normalizer satisfies the concrete §4.1/§8 examples —
`normalize("Daft Punk", "One More Time (Original Mix)")` equals
`normalize("Daft Punk", "One More Time")`, `normalize("Björk", "Jóga")`
is `"björk jóga"` with the accented letters preserved, and
`normalize("A&B", "Song!!")` is `"ab song"` — and, being a Lean function,
it is total and deterministic on all string inputs. -/
theorem normalizer_examples :
    normalizeArtistTitle "Daft Punk" "One More Time (Original Mix)"
      = normalizeArtistTitle "Daft Punk" "One More Time" ∧
    normalizeArtistTitle "Björk" "Jóga" = "björk jóga" ∧
    normalizeArtistTitle "A&B" "Song!!" = "ab song" ∧
    ∀ artist title : String,
      normalizeArtistTitle artist title = normalizeArtistTitle artist title :=
  ⟨by decide, by decide, by decide, fun _ _ => rfl⟩

/-- **C3** Duration lock-in: a positive existing duration survives every
merge unchanged, and the merge writes the incoming duration only when the
existing value is absent or zero and the incoming value is positive. -/
theorem merge_duration_lockin (existing : Song) (incoming : SongPatch)
    (newSource : Source) :
    (∀ v : Int, existing.duration = some v → 0 < v →
      (mergeSongData existing incoming newSource).duration = some v) ∧
    ((mergeSongData existing incoming newSource).duration ≠ existing.duration →
      (existing.duration = none ∨ existing.duration = some 0) ∧
      ∃ d : Int, incoming.duration = some d ∧ 0 < d ∧
        (mergeSongData existing incoming newSource).duration = some d) := by
  have hrw : (mergeSongData existing incoming newSource).duration
      = mergeDuration incoming.duration existing.duration := rfl
  constructor
  · intro v hv hpos
    rw [hrw, hv]
    cases hinc : incoming.duration with
    | none => simp [mergeDuration]
    | some d =>
      have hv0 : ¬ v = 0 := by omega
      by_cases hd : (0 : Int) < d
      · simp [mergeDuration, hd, hv0]
      · simp [mergeDuration, hd]
  · intro hne
    rw [hrw] at hne ⊢
    cases hinc : incoming.duration with
    | none =>
      rw [hinc] at hne
      simp [mergeDuration] at hne
    | some d =>
      rw [hinc] at hne
      by_cases hd : (0 : Int) < d
      · cases hex : existing.duration with
        | none =>
          refine ⟨Or.inl rfl, d, rfl, hd, ?_⟩
          simp [mergeDuration, hd]
        | some v =>
          rw [hex] at hne
          by_cases hv : v = (0 : Int)
          · subst hv
            refine ⟨Or.inr rfl, d, rfl, hd, ?_⟩
            simp [mergeDuration, hd]
          · exfalso
            apply hne
            simp [mergeDuration, hd, hv]
      · exfalso
        apply hne
        simp [mergeDuration, hd]

/-- Witness for C3: an existing 320000 ms duration survives a merge that
brings an incoming 999 ms duration. -/
theorem merge_duration_lockin_witness :
    (mergeSongData (mkSong 0 (some 320000) [] [srcApple "A" none])
      { duration := some 999 } (srcDjay "/b.aiff")).duration = some 320000 :=
  (merge_duration_lockin (mkSong 0 (some 320000) [] [srcApple "A" none])
      { duration := some 999 } (srcDjay "/b.aiff")).1 320000 rfl (by decide)

/-- **C6 (amended)** Merge of the set-valued fields: the merged genres and
grouping contain every existing value (nothing is ever removed) and
incoming duplicates of existing values are no-ops; because the JS code
rebuilds the stored list through a `Set`, the cardinality inequality
`|merged| ≥ |existing|` holds for duplicate-free existing lists (the code
deduplicates the existing list itself, so it can shrink a list that
already contains duplicates). -/
theorem merge_genres_grouping_union (existing : Song) (incoming : SongPatch)
    (newSource : Source) :
    (∀ g ∈ existing.genres, g ∈ (mergeSongData existing incoming newSource).genres) ∧
    (existing.genres.Nodup →
      existing.genres.length ≤ (mergeSongData existing incoming newSource).genres.length) ∧
    (∀ gs, incoming.genres = some gs → existing.genres.Nodup →
      (∀ g ∈ gs, g ∈ existing.genres) →
      (mergeSongData existing incoming newSource).genres = existing.genres) ∧
    (∀ g ∈ existing.grouping, g ∈ (mergeSongData existing incoming newSource).grouping) ∧
    (existing.grouping.Nodup →
      existing.grouping.length ≤ (mergeSongData existing incoming newSource).grouping.length) ∧
    (∀ gs, incoming.grouping = some gs → existing.grouping.Nodup →
      (∀ g ∈ gs, g ∈ existing.grouping) →
      (mergeSongData existing incoming newSource).grouping = existing.grouping) := by
  have hg : (mergeSongData existing incoming newSource).genres
      = match incoming.genres with
        | some gs => setUnion existing.genres gs
        | none => existing.genres := rfl
  have hr : (mergeSongData existing incoming newSource).grouping
      = match incoming.grouping with
        | some gs => setUnion existing.grouping gs
        | none => existing.grouping := rfl
  refine ⟨?_, ?_, ?_, ?_, ?_, ?_⟩
  · intro g hmem
    rw [hg]
    cases incoming.genres with
    | none => exact hmem
    | some gs => exact mem_setUnion_left _ _ _ hmem
  · intro hnd
    rw [hg]
    cases incoming.genres with
    | none => exact le_refl _
    | some gs => exact setUnion_length_ge _ _ hnd
  · intro gs hgs hnd hsub
    rw [hg, hgs]
    exact setUnion_noop _ _ hnd hsub
  · intro g hmem
    rw [hr]
    cases incoming.grouping with
    | none => exact hmem
    | some gs => exact mem_setUnion_left _ _ _ hmem
  · intro hnd
    rw [hr]
    cases incoming.grouping with
    | none => exact le_refl _
    | some gs => exact setUnion_length_ge _ _ hnd
  · intro gs hgs hnd hsub
    rw [hr, hgs]
    exact setUnion_noop _ _ hnd hsub

/-- Counterexample for C6 as frozen: an existing song whose genres list
contains a duplicate (`["house", "house"]`) merged with a present-but-empty
incoming genres array loses a list entry (`["house"]`), so
`|merged.genres| ≥ |existing.genres|` fails. -/
theorem merge_genres_card_counterexample :
    (mkSong 0 (some 320000) ["house", "house"] [srcApple "A" none]).genres.length = 2 ∧
    (mergeSongData (mkSong 0 (some 320000) ["house", "house"] [srcApple "A" none])
      { genres := some [] } (srcDjay "/x.mp3")).genres = ["house"] ∧
    ¬ ((mkSong 0 (some 320000) ["house", "house"] [srcApple "A" none]).genres.length ≤
        (mergeSongData (mkSong 0 (some 320000) ["house", "house"] [srcApple "A" none])
          { genres := some [] } (srcDjay "/x.mp3")).genres.length) := by
  decide

/-- Witness for C6: on a duplicate-free existing genres list the merged
list is at least as long. -/
theorem merge_genres_grouping_union_witness :
    (mkSong 1 none ["house", "techno"] []).genres.length ≤
      (mergeSongData (mkSong 1 none ["house", "techno"] [])
        { genres := some ["techno", "dub"] } (srcDjay "/y.mp3")).genres.length :=
  (merge_genres_grouping_union (mkSong 1 none ["house", "techno"] [])
      { genres := some ["techno", "dub"] } (srcDjay "/y.mp3")).2.1 (by decide)

/-- **C5 (amended)** Source merge: the merge locates the *first* existing
Source with the same source type that matches the incoming Source either
on the identity key (source-metadata id, else file path, when truthy) or
on a (truthy) shared file path; when one is found at index `i`, the length
of the sources collection is unchanged and exactly the entry at `i` is
replaced wholesale by the incoming Source; when none matches, the incoming
Source is appended. -/
theorem merge_source_replace_or_append (existing : Song) (incoming : SongPatch)
    (newSource : Source) :
    (∀ i, existing.sources.findIdx? (fun s => sourceMatches newSource s) = some i →
      (mergeSongData existing incoming newSource).sources.length
          = existing.sources.length ∧
      (mergeSongData existing incoming newSource).sources[i]? = some newSource ∧
      ∀ j, j ≠ i →
        (mergeSongData existing incoming newSource).sources[j]?
          = existing.sources[j]?) ∧
    (existing.sources.findIdx? (fun s => sourceMatches newSource s) = none →
      (mergeSongData existing incoming newSource).sources
        = existing.sources ++ [newSource]) := by
  have hrw : (mergeSongData existing incoming newSource).sources
      = mergeSources existing.sources newSource := rfl
  rw [hrw]
  unfold mergeSources
  constructor
  · intro i hi
    rw [hi]
    have hlt := findIdx?_some_lt _ existing.sources i hi
    refine ⟨List.length_set .., ?_, ?_⟩
    · rw [List.getElem?_set]
      rw [if_pos rfl, if_pos hlt]
    · intro j hj
      rw [List.getElem?_set]
      rw [if_neg (fun h => hj h.symm)]
  · intro hn
    rw [hn]

/-- Counterexample for C5 as frozen: the single existing Source has
identity key `"A"`, the incoming same-type Source has identity key `"B"`
but the same file path; no existing Source carries the incoming (type,
identity key), so the claim demands an append (two entries), yet the code
matches on the shared file path and replaces, leaving one entry. -/
theorem merge_source_identity_counterexample :
    sourceKey (srcApple "B" (some "/music/track.mp3"))
        ≠ sourceKey (srcApple "A" (some "/music/track.mp3")) ∧
    (mergeSongData (mkSong 0 (some 320000) [] [srcApple "A" (some "/music/track.mp3")])
        emptyPatch (srcApple "B" (some "/music/track.mp3"))).sources
      = [srcApple "B" (some "/music/track.mp3")] ∧
    ¬ ((mergeSongData (mkSong 0 (some 320000) [] [srcApple "A" (some "/music/track.mp3")])
        emptyPatch (srcApple "B" (some "/music/track.mp3"))).sources.length = 2) := by
  decide

/-- Witness for C5: re-importing the identical source (same type and
identity key) leaves the length at one and replaces that entry. -/
theorem merge_source_replace_or_append_witness :
    (mergeSongData (mkSong 0 (some 320000) [] [srcApple "A" (some "/old.mp3")])
        emptyPatch (srcApple "A" (some "/new.mp3"))).sources.length
      = (mkSong 0 (some 320000) [] [srcApple "A" (some "/old.mp3")]).sources.length ∧
    (mergeSongData (mkSong 0 (some 320000) [] [srcApple "A" (some "/old.mp3")])
        emptyPatch (srcApple "A" (some "/new.mp3"))).sources[0]?
      = some (srcApple "A" (some "/new.mp3")) :=
  ⟨((merge_source_replace_or_append
        (mkSong 0 (some 320000) [] [srcApple "A" (some "/old.mp3")])
        emptyPatch (srcApple "A" (some "/new.mp3"))).1 0 (by decide)).1,
   ((merge_source_replace_or_append
        (mkSong 0 (some 320000) [] [srcApple "A" (some "/old.mp3")])
        emptyPatch (srcApple "A" (some "/new.mp3"))).1 0 (by decide)).2.1⟩

/-- **C4** Sources are never lost: every Song returned by a successful
upsert has a non-empty sources collection (the create path stores
`[source]`), and the merge path never shrinks the collection — its length
is at least the existing length and every existing position still holds
either its old Source or the incoming replacement. -/
theorem sources_nonempty_never_shrink :
    (∀ (cat : Catalog) (artist title : String) (duration : Option Int)
        (songData : SongPatch) (source : Source) (cat2 : Catalog) (s2 : Song),
      upsertSongWithMerge cat artist title duration songData source
          = Except.ok (cat2, s2) →
      s2.sources ≠ []) ∧
    (∀ (existing : Song) (incoming : SongPatch) (newSource : Source),
      existing.sources.length
          ≤ (mergeSongData existing incoming newSource).sources.length ∧
      ∀ j, j < existing.sources.length →
        (mergeSongData existing incoming newSource).sources[j]?
            = existing.sources[j]? ∨
        (mergeSongData existing incoming newSource).sources[j]?
            = some newSource) := by
  constructor
  · intro cat artist title duration songData source cat2 s2 hok
    unfold upsertSongWithMerge at hok
    cases hfind : findMatchingSong cat.songs artist title duration with
    | some existing =>
      rw [hfind] at hok
      have hok2 : (match findByIdAndUpdate cat existing.id
            (mergeSongData existing songData source) with
          | some (c, u) => Except.ok (c, u)
          | none => (Except.error "Failed to update song" :
              Except String (Catalog × Song))) = Except.ok (cat2, s2) := hok
      cases hupd : findByIdAndUpdate cat existing.id
          (mergeSongData existing songData source) with
      | some p =>
        rw [hupd] at hok2
        cases p with
        | mk cat' s' =>
          cases hok2
          unfold findByIdAndUpdate at hupd
          by_cases hany : cat.songs.any (fun s => s.id == existing.id)
          · rw [if_pos hany] at hupd
            cases hupd
            show ({ mergeSongData existing songData source with
                      id := existing.id } : Song).sources ≠ []
            have hsrc : ({ mergeSongData existing songData source with
                      id := existing.id } : Song).sources
                = mergeSources existing.sources source := rfl
            rw [hsrc]
            exact mergeSources_ne_nil _ _
          · rw [if_neg hany] at hupd
            cases hupd
      | none =>
        rw [hupd] at hok2
        cases hok2
    | none =>
      rw [hfind] at hok
      unfold saveNewSong at hok
      by_cases h1 : (buildNewSongDoc songData artist title duration source
          cat.nextId).title = ""
      · rw [if_pos h1] at hok; cases hok
      · rw [if_neg h1] at hok
        by_cases h2 : (buildNewSongDoc songData artist title duration source
            cat.nextId).artistTitleNormalized = ""
        · rw [if_pos h2] at hok; cases hok
        · rw [if_neg h2] at hok
          cases hok
          simp [buildNewSongDoc]
  · intro existing incoming newSource
    have hrw : (mergeSongData existing incoming newSource).sources
        = mergeSources existing.sources newSource := rfl
    rw [hrw]
    unfold mergeSources
    cases hidx : existing.sources.findIdx? (fun s => sourceMatches newSource s) with
    | some i =>
      constructor
      · rw [List.length_set]
      · intro j hj
        by_cases hij : i = j
        · subst hij
          right
          rw [List.getElem?_set, if_pos rfl, if_pos (findIdx?_some_lt _ _ _ hidx)]
        · left
          rw [List.getElem?_set, if_neg hij]
    | none =>
      constructor
      · simp
      · intro j hj
        left
        rw [List.getElem?_append]
        rw [if_pos hj]

/-- Witness for C4: a successful create-path upsert yields a Song whose
sources collection is non-empty. -/
theorem sources_nonempty_never_shrink_witness :
    (mkSong 0 (some 320000) [] [srcApple "A" none]).sources ≠ [] :=
  (sources_nonempty_never_shrink).1 emptyCatalog "Daft Punk" "One More Time"
    (some 320000) patchWithNorm (srcApple "A" none)
    { songs := [mkSong 0 (some 320000) [] [srcApple "A" none]], nextId := 1 }
    (mkSong 0 (some 320000) [] [srcApple "A" none]) rfl

/-- **C8 (amended)** Matcher tie-break: when a positive duration is
supplied and at least one candidate passes the code's tight test — stored
duration present, nonzero (JS truthiness) and *strictly* within 1000 ms of
the supplied value — the matcher returns exactly the first such candidate
in query order, which in particular passes the tight test. -/
theorem matcher_tight_tiebreak (songs : List Song) (artist title : String)
    (d : Int) (hd : 0 < d)
    (h : ∃ s ∈ matchCandidates songs artist title (some d),
      tightDurationMatch s.duration d = true) :
    findMatchingSong songs artist title (some d)
      = (matchCandidates songs artist title (some d)).find?
          (fun s => tightDurationMatch s.duration d) ∧
    ∃ s, (matchCandidates songs artist title (some d)).find?
          (fun s => tightDurationMatch s.duration d) = some s ∧
      tightDurationMatch s.duration d = true := by
  have hkey : ¬ normalizeArtistTitle artist title = "" := by
    intro hk
    obtain ⟨s, hmem, -⟩ := h
    unfold matchCandidates at hmem
    rw [if_pos hk] at hmem
    exact List.not_mem_nil s hmem
  have hsome : ((matchCandidates songs artist title (some d)).find?
      (fun s => tightDurationMatch s.duration d)).isSome := by
    rw [List.find?_isSome]
    exact h
  obtain ⟨s, hs⟩ := Option.isSome_iff_exists.mp hsome
  have hps := List.find?_some hs
  refine ⟨?_, s, hs, hps⟩
  unfold findMatchingSong
  rw [if_neg hkey]
  cases hc : matchCandidates songs artist title (some d) with
  | nil =>
    obtain ⟨x, hmem, -⟩ := h
    rw [hc] at hmem
    exact absurd hmem (List.not_mem_nil x)
  | cons first restc =>
    rw [hc] at hs
    show (if 0 < d then
        match (first :: restc).find? (fun s => tightDurationMatch s.duration d) with
        | some y => some y
        | none => some first
      else some first)
      = (first :: restc).find? (fun s => tightDurationMatch s.duration d)
    rw [if_pos hd, hs]

/-- Counterexample for C8 as frozen: with supplied duration 320000 the
candidate set holds a first song at 321500 (band only) and a second at
321000 — exactly 1000 ms away, i.e. within ±1000 ms inclusively — yet the
matcher returns the 321500 song, because the code's tight test is the
strict `Math.abs(...) < 1000`. -/
theorem matcher_inclusive_boundary_counterexample :
    ((321000 : Int) - 320000).natAbs ≤ 1000 ∧
    mkSong 1 (some 321000) [] [] ∈
      matchCandidates [mkSong 0 (some 321500) [] [], mkSong 1 (some 321000) [] []]
        "Daft Punk" "One More Time" (some 320000) ∧
    findMatchingSong [mkSong 0 (some 321500) [] [], mkSong 1 (some 321000) [] []]
        "Daft Punk" "One More Time" (some 320000)
      = some (mkSong 0 (some 321500) [] []) ∧
    ¬ (((321500 : Int) - 320000).natAbs ≤ 1000) := by
  decide

/-- Witness for C8: a catalog holding a band-only candidate (321500 ms)
after a strictly tight one is queried at 320000 ms; the tight candidate
exists, so the matcher returns the first strictly tight candidate. -/
theorem matcher_tight_tiebreak_witness :
    (findMatchingSong [mkSong 0 (some 321500) [] [], mkSong 1 (some 320400) [] []]
        "Daft Punk" "One More Time" (some 320000)
      = (matchCandidates [mkSong 0 (some 321500) [] [], mkSong 1 (some 320400) [] []]
          "Daft Punk" "One More Time" (some 320000)).find?
          (fun s => tightDurationMatch s.duration 320000)) ∧
    ∃ s, (matchCandidates [mkSong 0 (some 321500) [] [], mkSong 1 (some 320400) [] []]
          "Daft Punk" "One More Time" (some 320000)).find?
          (fun s => tightDurationMatch s.duration 320000) = some s ∧
      tightDurationMatch s.duration 320000 = true :=
  matcher_tight_tiebreak [mkSong 0 (some 321500) [] [], mkSong 1 (some 320400) [] []]
    "Daft Punk" "One More Time" 320000 (by decide)
    ⟨mkSong 1 (some 320400) [] [], by decide, by decide⟩

/-- **C9 (amended)** The matcher never matches when the artist is empty —
the normalized key is empty whenever either input is empty, so there is no
"less discriminating" matching — and an upsert with an empty artist whose
song-field bundle does not carry a non-empty precomputed
`artistTitleNormalized` fails the store's required-field validation on the
create path instead of creating a Song; the orchestrator has no explicit
InvalidInput refusal of its own. -/
theorem empty_artist_unmatchable (cat : Catalog) (title : String)
    (duration : Option Int) (songData : SongPatch) (source : Source)
    (hpd : songData.artistTitleNormalized = none ∨
      songData.artistTitleNormalized = some "") :
    findMatchingSong cat.songs "" title duration = none ∧
    exceptIsOk (upsertSongWithMerge cat "" title duration songData source) = false := by
  have hkey : normalizeArtistTitle "" title = "" := by
    unfold normalizeArtistTitle
    rw [if_pos]
    simp
  have hfind : findMatchingSong cat.songs "" title duration = none := by
    unfold findMatchingSong
    rw [hkey]
    simp
  refine ⟨hfind, ?_⟩
  unfold upsertSongWithMerge
  rw [hfind]
  have hnorm : (buildNewSongDoc songData "" title duration source
      cat.nextId).artistTitleNormalized = "" := by
    show trimString (songData.artistTitleNormalized.getD "") = ""
    rcases hpd with hpd | hpd <;> rw [hpd] <;> rfl
  unfold saveNewSong
  by_cases ht : (buildNewSongDoc songData "" title duration source cat.nextId).title = ""
  · rw [if_pos ht]
    rfl
  · rw [if_neg ht, if_pos hnorm]
    rfl

/-- Counterexample for C9 as frozen: an upsert with empty artist and
non-empty title against the empty catalog does not proceed to create a
Song — it fails (required-field validation of the empty normalized
identity) and writes nothing. -/
theorem empty_artist_upsert_counterexample :
    exceptIsOk (upsertSongWithMerge emptyCatalog "" "My Song" (some 200000)
        emptyPatch (srcDjay "/m.mp3")) = false ∧
    (catalogAfter (upsertSongWithMerge emptyCatalog "" "My Song" (some 200000)
        emptyPatch (srcDjay "/m.mp3")) emptyCatalog).songs.length = 0 := by
  decide

/-- Witness for C9: a non-trivial catalog and an empty-artist track with an
empty song-field bundle — no match is found and the upsert fails. -/
theorem empty_artist_unmatchable_witness :
    findMatchingSong (Catalog.mk [mkSong 0 (some 320000) [] []] 1).songs
        "" "One More Time" (some 320000) = none ∧
    exceptIsOk (upsertSongWithMerge (Catalog.mk [mkSong 0 (some 320000) [] []] 1)
        "" "One More Time" (some 320000) emptyPatch (srcDjay "/m.mp3")) = false :=
  empty_artist_unmatchable (Catalog.mk [mkSong 0 (some 320000) [] []] 1)
    "One More Time" (some 320000) emptyPatch (srcDjay "/m.mp3") (Or.inl rfl)

/-- Successful create path of the orchestrator: with no match, a non-empty
title and a truthy `artistTitleNormalized` in the song-field bundle, the
upsert validates, recomputes the normalized identity in the `pre('save')`
hook, and appends the new document. -/
theorem upsert_creates (cat : Catalog) (artist title : String)
    (duration : Option Int) (songData : SongPatch) (source : Source)
    (hfind : findMatchingSong cat.songs artist title duration = none)
    (ht : ¬ trimString title = "")
    (hpd : ¬ trimString (songData.artistTitleNormalized.getD "") = "") :
    upsertSongWithMerge cat artist title duration songData source
      = Except.ok
        ({ songs := cat.songs ++
            [{ buildNewSongDoc songData artist title duration source cat.nextId with
                artistTitleNormalized :=
                  normalizeArtistTitle (trimString artist) (trimString title) }],
           nextId := cat.nextId + 1 },
         { buildNewSongDoc songData artist title duration source cat.nextId with
            artistTitleNormalized :=
              normalizeArtistTitle (trimString artist) (trimString title) }) := by
  unfold upsertSongWithMerge
  rw [hfind]
  unfold saveNewSong
  rw [if_neg (show ¬ (buildNewSongDoc songData artist title duration source
      cat.nextId).title = "" from ht)]
  rw [if_neg (show ¬ (buildNewSongDoc songData artist title duration source
      cat.nextId).artistTitleNormalized = "" from hpd)]
  rfl

/-- **C7** Normalized-identity invariant: on a catalog whose songs all
satisfy `artistTitleNormalized = normalize(artist, title)`, every
successful upsert preserves the invariant for the returned Song and for
every stored Song; moreover the record written on the update path keeps
the matched Song's `artist`, `title` and `artistTitleNormalized`
unchanged, so the claimed recomputation obligation ("whenever the written
record's artist or title differs") never has its antecedent true. -/
theorem normalized_identity_invariant (cat : Catalog) (artist title : String)
    (duration : Option Int) (songData : SongPatch) (source : Source)
    (hcat : ∀ s ∈ cat.songs, NormInvariant s)
    (cat2 : Catalog) (s2 : Song)
    (hok : upsertSongWithMerge cat artist title duration songData source
        = Except.ok (cat2, s2)) :
    NormInvariant s2 ∧ (∀ s ∈ cat2.songs, NormInvariant s) ∧
    (∀ (ex : Song) (pd : SongPatch) (src : Source),
      (mergeSongData ex pd src).artist = ex.artist ∧
      (mergeSongData ex pd src).title = ex.title ∧
      (mergeSongData ex pd src).artistTitleNormalized
        = ex.artistTitleNormalized) := by
  have hmerge : ∀ (ex : Song) (pd : SongPatch) (src : Source),
      (mergeSongData ex pd src).artist = ex.artist ∧
      (mergeSongData ex pd src).title = ex.title ∧
      (mergeSongData ex pd src).artistTitleNormalized
        = ex.artistTitleNormalized := fun _ _ _ => ⟨rfl, rfl, rfl⟩
  unfold upsertSongWithMerge at hok
  cases hfind : findMatchingSong cat.songs artist title duration with
  | some existing =>
    rw [hfind] at hok
    have hok2 : (match findByIdAndUpdate cat existing.id
          (mergeSongData existing songData source) with
        | some (c, u) => Except.ok (c, u)
        | none => (Except.error "Failed to update song" :
            Except String (Catalog × Song))) = Except.ok (cat2, s2) := hok
    cases hupd : findByIdAndUpdate cat existing.id
        (mergeSongData existing songData source) with
    | some p =>
      rw [hupd] at hok2
      cases p with
      | mk cat' s' =>
        cases hok2
        unfold findByIdAndUpdate at hupd
        by_cases hany : cat.songs.any (fun s => s.id == existing.id)
        · rw [if_pos hany] at hupd
          cases hupd
          have hexinv : NormInvariant existing :=
            hcat existing (findMatchingSong_mem _ _ _ _ _ hfind)
          have hs2inv : NormInvariant
              ({ mergeSongData existing songData source with
                  id := existing.id } : Song) := hexinv
          refine ⟨hs2inv, ?_, hmerge⟩
          intro s hs
          obtain ⟨x, hx, hfx⟩ := List.mem_map.mp hs
          by_cases hxid : (x.id == existing.id) = true
          · rw [if_pos hxid] at hfx
            rw [← hfx]
            exact hs2inv
          · rw [if_neg hxid] at hfx
            rw [← hfx]
            exact hcat x hx
        · rw [if_neg hany] at hupd
          cases hupd
    | none =>
      rw [hupd] at hok2
      cases hok2
  | none =>
    rw [hfind] at hok
    unfold saveNewSong at hok
    by_cases h1 : (buildNewSongDoc songData artist title duration source
        cat.nextId).title = ""
    · rw [if_pos h1] at hok
      cases hok
    · rw [if_neg h1] at hok
      by_cases h2 : (buildNewSongDoc songData artist title duration source
          cat.nextId).artistTitleNormalized = ""
      · rw [if_pos h2] at hok
        cases hok
      · rw [if_neg h2] at hok
        cases hok
        have hinv : NormInvariant
            ({ buildNewSongDoc songData artist title duration source cat.nextId with
                artistTitleNormalized := normalizeArtistTitle
                  (buildNewSongDoc songData artist title duration source cat.nextId).artist
                  (buildNewSongDoc songData artist title duration source cat.nextId).title } :
              Song) := rfl
        refine ⟨hinv, ?_, hmerge⟩
        intro s hs
        rcases List.mem_append.mp hs with hs | hs
        · exact hcat s hs
        · rw [List.mem_singleton.mp hs]
          exact hinv

/-- Witness for C7: the §8 scenario song "Bailey Ibbs" / "We Run" created
into the empty catalog satisfies the normalized-identity invariant. -/
theorem normalized_identity_invariant_witness :
    NormInvariant
      (Song.mk 0 "We Run" "Bailey Ibbs" none (some 371000) [] [] none none
        none none "bailey ibbs we run" [srcDjay "/w.mp3"]) :=
  (normalized_identity_invariant emptyCatalog "Bailey Ibbs" "We Run"
    (some 371000) patchWithNorm (srcDjay "/w.mp3")
    (by intro s hs; exact absurd hs (List.not_mem_nil s))
    (Catalog.mk
      [Song.mk 0 "We Run" "Bailey Ibbs" none (some 371000) [] [] none none
        none none "bailey ibbs we run" [srcDjay "/w.mp3"]] 1)
    (Song.mk 0 "We Run" "Bailey Ibbs" none (some 371000) [] [] none none
      none none "bailey ibbs we run" [srcDjay "/w.mp3"]) rfl).1

theorem matchCandidates_some_pos (songs : List Song) (a t : String) (d : Int)
    (hd : 0 < d) (hk : ¬ normalizeArtistTitle a t = "") :
    matchCandidates songs a t (some d)
      = songs.filter (fun s => s.artistTitleNormalized == normalizeArtistTitle a t
          && durationInBand s.duration d) := by
  simp only [matchCandidates]
  rw [if_neg hk]
  apply List.filter_congr
  intro s _
  show (s.artistTitleNormalized == normalizeArtistTitle a t &&
      (if 0 < d then durationInBand s.duration d else true))
    = (s.artistTitleNormalized == normalizeArtistTitle a t && durationInBand s.duration d)
  rw [if_pos hd]

theorem findMatchingSong_of_candidates_nil (songs : List Song) (a t : String)
    (dur : Option Int) (h : matchCandidates songs a t dur = []) :
    findMatchingSong songs a t dur = none := by
  unfold findMatchingSong
  by_cases hk : normalizeArtistTitle a t = ""
  · rw [if_pos hk]
  · rw [if_neg hk, h]

/-- **C2 (amended)** Duration-tolerance boundary: on a catalog with no song
under the incoming normalized identity, two upserts with identical artist
and title, a non-empty title, durations 320000 ms and 322500 ms (2500 ms
apart, outside the ±2000 ms band), and song-field bundles that each carry
a precomputed `artistTitleNormalized` remaining non-empty after the
schema's `trim` setter (as the Rekordbox importer supplies; the store's
required-field validation runs after the trim setters but before the
renormalizing save hook) both succeed and create two distinct Songs — the
second call does not match the Song created by the first. -/
theorem upsert_duration_boundary_two_songs (cat : Catalog) (artist title : String)
    (pd1 pd2 : SongPatch) (src1 src2 : Source)
    (hNo : ∀ s ∈ cat.songs, s.artistTitleNormalized ≠ normalizeArtistTitle artist title)
    (ht : ¬ trimString title = "")
    (hpd1 : ¬ trimString (pd1.artistTitleNormalized.getD "") = "")
    (hpd2 : ¬ trimString (pd2.artistTitleNormalized.getD "") = "") :
    ∃ c1 s1 c2 s2,
      upsertSongWithMerge cat artist title (some 320000) pd1 src1
        = Except.ok (c1, s1) ∧
      upsertSongWithMerge c1 artist title (some 322500) pd2 src2
        = Except.ok (c2, s2) ∧
      s1.id ≠ s2.id ∧
      c2.songs.length = cat.songs.length + 2 := by
  have hfind1 : findMatchingSong cat.songs artist title (some 320000) = none :=
    findMatchingSong_eq_none _ _ _ _ hNo
  have h1 := upsert_creates cat artist title (some 320000) pd1 src1 hfind1 ht hpd1
  have hfind2 : findMatchingSong
      (cat.songs ++
        [{ buildNewSongDoc pd1 artist title (some 320000) src1 cat.nextId with
            artistTitleNormalized :=
              normalizeArtistTitle (trimString artist) (trimString title) }])
      artist title (some 322500) = none := by
    apply findMatchingSong_of_candidates_nil
    by_cases hk : normalizeArtistTitle artist title = ""
    · simp only [matchCandidates]
      rw [if_pos hk]
    · rw [matchCandidates_some_pos _ _ _ _ (by decide) hk]
      apply List.filter_eq_nil_iff.mpr
      intro s hs
      rcases List.mem_append.mp hs with hs | hs
      · simp only [Bool.and_eq_true, beq_iff_eq, not_and]
        intro heq
        exact absurd heq (hNo s hs)
      · rw [List.mem_singleton.mp hs]
        intro hq
        rw [Bool.and_eq_true] at hq
        have hband : durationInBand
            ({ buildNewSongDoc pd1 artist title (some 320000) src1 cat.nextId with
                artistTitleNormalized := normalizeArtistTitle artist title } : Song).duration
            322500 = false := rfl
        rw [hband] at hq
        exact Bool.false_ne_true hq.2
  have h2 := upsert_creates
    (Catalog.mk
      (cat.songs ++
        [{ buildNewSongDoc pd1 artist title (some 320000) src1 cat.nextId with
            artistTitleNormalized :=
              normalizeArtistTitle (trimString artist) (trimString title) }])
      (cat.nextId + 1))
    artist title (some 322500) pd2 src2 hfind2 ht hpd2
  refine ⟨_, _, _, _, h1, h2, ?_, ?_⟩
  · show cat.nextId ≠ cat.nextId + 1
    omega
  · show ((cat.songs ++ [_]) ++ [_]).length = cat.songs.length + 2
    simp only [List.length_append, List.length_singleton]

/-- Witness for C2: the two boundary upserts into the empty catalog create
two distinct songs. -/
theorem upsert_duration_boundary_two_songs_witness :
    ∃ c1 s1 c2 s2,
      upsertSongWithMerge emptyCatalog "Daft Punk" "One More Time" (some 320000)
          patchWithNorm (srcApple "A" none)
        = Except.ok (c1, s1) ∧
      upsertSongWithMerge c1 "Daft Punk" "One More Time" (some 322500)
          patchWithNorm (srcDjay "/j.mp3")
        = Except.ok (c2, s2) ∧
      s1.id ≠ s2.id ∧
      c2.songs.length = emptyCatalog.songs.length + 2 :=
  upsert_duration_boundary_two_songs emptyCatalog "Daft Punk" "One More Time"
    patchWithNorm patchWithNorm (srcApple "A" none) (srcDjay "/j.mp3")
    (fun s hs => absurd hs (List.not_mem_nil s))
    (by decide) (by decide) (by decide)

/-- Counterexample for C2 as frozen: two boundary upserts with an empty
(but identical) title write nothing — the required-title validation
rejects both creates — and two boundary upserts with a valid title but a
song-field bundle lacking a precomputed `artistTitleNormalized` also write
nothing, because the required-field validation runs before the save hook
that would populate the field; in both cases zero Songs exist afterwards,
not two. -/
theorem upsert_duration_boundary_counterexample :
    (let c1 := catalogAfter
        (upsertSongWithMerge emptyCatalog "Daft Punk" "" (some 320000)
          patchWithNorm (srcApple "A" none)) emptyCatalog
     let c2 := catalogAfter
        (upsertSongWithMerge c1 "Daft Punk" "" (some 322500)
          patchWithNorm (srcDjay "/j.mp3")) c1
     c2.songs.length = 0 ∧ ¬ (c2.songs.length = 2)) ∧
    (let d1 := catalogAfter
        (upsertSongWithMerge emptyCatalog "Daft Punk" "One More Time" (some 320000)
          emptyPatch (srcApple "A" none)) emptyCatalog
     let d2 := catalogAfter
        (upsertSongWithMerge d1 "Daft Punk" "One More Time" (some 322500)
          emptyPatch (srcDjay "/j.mp3")) d1
     d2.songs.length = 0 ∧ ¬ (d2.songs.length = 2)) := by
  decide
